import Mathlib

/-!
Verification of the order-placement and inventory workflow of the
cocktail-backend repository against its natural-language specification.

The Stock Ledger is embedded from the inventory schema in
src/models/Cart.js, the alert sweeper from
src/services/inventoryAlertService.js, and the Order Workflow from
src/routes/orders.js together with src/models/Order.js and
src/middleware/validation.js.  JavaScript numbers are modelled as Int
(quantities and prices are integral in this code base), timestamps as
Int milliseconds, and MongoDB documents as Lean structures stored in
lists keyed by their unique key fields.
-/

namespace CocktailBackend

/-! ### Stock Ledger data model (inventorySchema, src/models/Cart.js) -/

/-- alertSettings.frequency enum: immediate, daily, weekly, monthly. -/
inductive AlertFrequency
  | immediate
  | daily
  | weekly
  | monthly
deriving DecidableEq, Repr

/-- The alertSettings sub-document of an inventory record. -/
structure AlertSettings where
  isEnabled : Bool
  frequency : AlertFrequency
  lastAlertSent : Option Int
  alertThreshold : Int
deriving DecidableEq, Repr

/-- One entry of restockHistory. -/
structure RestockEntry where
  quantity : Int
  cost : Int
  restockedBy : String
  restockedAt : Int
  notes : String
deriving DecidableEq, Repr

/-- An inventory record (one per cocktail, `cocktail` is the unique key). -/
structure Inventory where
  cocktail : Nat
  currentStock : Int
  minimumStock : Int
  maximumStock : Int
  restockHistory : List RestockEntry
  alertSettings : AlertSettings
  lastRestocked : Int
  isActive : Bool
deriving DecidableEq, Repr

/-- The four values of the stockStatus virtual. -/
inductive StockStatus
  | out_of_stock
  | critical
  | low
  | sufficient
deriving DecidableEq, Repr

/-- The stockStatus virtual of inventorySchema: out_of_stock when
currentStock is 0, else critical when at most alertThreshold, else low
when at most minimumStock, else sufficient. -/
def stockStatus (inv : Inventory) : StockStatus :=
  if inv.currentStock = 0 then StockStatus.out_of_stock
  else if inv.currentStock ≤ inv.alertSettings.alertThreshold then StockStatus.critical
  else if inv.currentStock ≤ inv.minimumStock then StockStatus.low
  else StockStatus.sufficient

/-- inventorySchema.methods.isStockLow. -/
def isStockLow (inv : Inventory) : Bool :=
  decide (inv.currentStock ≤ inv.minimumStock)

/-- inventorySchema.methods.isStockCritical. -/
def isStockCritical (inv : Inventory) : Bool :=
  decide (inv.currentStock ≤ inv.alertSettings.alertThreshold)

/-- The trimming step of addStock: keep only the last 50 restock
records (restockHistory.slice(-50) when length exceeds 50). -/
def trimHistory (h : List RestockEntry) : List RestockEntry :=
  if h.length > 50 then h.drop (h.length - 50) else h

/-- inventorySchema.methods.addStock: add the quantity to currentStock,
set lastRestocked, push one restock record and trim the history. -/
def addStock (inv : Inventory) (quantity cost : Int) (restockedBy : String)
    (now : Int) (notes : String) : Inventory :=
  { inv with
      currentStock := inv.currentStock + quantity
      lastRestocked := now
      restockHistory :=
        trimHistory (inv.restockHistory ++
          [⟨quantity, cost, restockedBy, now, notes⟩]) }

/-- inventorySchema.methods.reduceStock: throws when currentStock is
below the requested quantity, otherwise subtracts and saves. -/
def reduceStock (inv : Inventory) (quantity : Int) : Except String Inventory :=
  if inv.currentStock < quantity then
    Except.error "Insufficient stock"
  else
    Except.ok { inv with currentStock := inv.currentStock - quantity }

/-! ### Alert sweeper (src/services/inventoryAlertService.js) -/

/-- The frequency windows used by shouldSendAlert, in milliseconds. -/
def frequencyWindowMs : AlertFrequency → Int
  | AlertFrequency.immediate => 0
  | AlertFrequency.daily => 24 * 60 * 60 * 1000
  | AlertFrequency.weekly => 7 * 24 * 60 * 60 * 1000
  | AlertFrequency.monthly => 30 * 24 * 60 * 60 * 1000

/-- shouldSendAlert: true when no alert has been sent yet; otherwise
compare now minus lastAlertSent against the frequency window (the
enum is closed here, so the default-to-daily branch of the source
switch is unreachable). -/
def shouldSendAlert (now : Int) (settings : AlertSettings) : Bool :=
  match settings.lastAlertSent with
  | none => true
  | some lastAlert =>
    match settings.frequency with
    | AlertFrequency.immediate => true
    | AlertFrequency.daily => decide (now - lastAlert ≥ 24 * 60 * 60 * 1000)
    | AlertFrequency.weekly => decide (now - lastAlert ≥ 7 * 24 * 60 * 60 * 1000)
    | AlertFrequency.monthly => decide (now - lastAlert ≥ 30 * 24 * 60 * 60 * 1000)

/-- Claim C6: the stockStatus classification is out_of_stock at stock 0,
else critical up to alertThreshold, else low up to minimumStock, else
sufficient, with the critical check taking precedence over the low
check. -/
theorem c6_classification (inv : Inventory) :
    (stockStatus inv = StockStatus.out_of_stock ↔ inv.currentStock = 0) ∧
    (stockStatus inv = StockStatus.critical ↔
      inv.currentStock ≠ 0 ∧
      inv.currentStock ≤ inv.alertSettings.alertThreshold) ∧
    (stockStatus inv = StockStatus.low ↔
      inv.currentStock ≠ 0 ∧
      inv.alertSettings.alertThreshold < inv.currentStock ∧
      inv.currentStock ≤ inv.minimumStock) ∧
    (stockStatus inv = StockStatus.sufficient ↔
      inv.currentStock ≠ 0 ∧
      inv.alertSettings.alertThreshold < inv.currentStock ∧
      inv.minimumStock < inv.currentStock) := by
  unfold stockStatus
  split_ifs with h0 hcrit hlow <;> simp_all

/-- Claim C9: shouldSendAlert holds exactly when no alert was ever sent,
or the frequency is immediate, or the elapsed time reaches the window
(24h daily, 7d weekly, 30d monthly); with daily frequency it is false
at 23 hours elapsed and true at 25 hours. -/
theorem c9_alert_gating (now : Int) (settings : AlertSettings) :
    (shouldSendAlert now settings = true ↔
      (settings.lastAlertSent = none ∨
        settings.frequency = AlertFrequency.immediate ∨
        ∃ lastAlert, settings.lastAlertSent = some lastAlert ∧
          frequencyWindowMs settings.frequency ≤ now - lastAlert)) ∧
    shouldSendAlert (23 * 60 * 60 * 1000)
      ⟨true, AlertFrequency.daily, some 0, 5⟩ = false ∧
    shouldSendAlert (25 * 60 * 60 * 1000)
      ⟨true, AlertFrequency.daily, some 0, 5⟩ = true := by
  refine ⟨?_, by decide, by decide⟩
  cases hl : settings.lastAlertSent with
  | none => simp [shouldSendAlert, hl]
  | some lastAlert =>
    cases hf : settings.frequency <;>
      simp [shouldSendAlert, hl, hf, frequencyWindowMs]

/-! ### Sequences of restocks and decrements on one record -/

/-- One mutation of a stock record: a restock (addStock, called by the
inventory restock route) or an order decrement (reduceStock, called
during order processing). -/
inductive StockOp
  | restock (quantity cost : Int) (actor : String) (now : Int) (notes : String)
  | orderDecrement (quantity : Int)
deriving DecidableEq, Repr

/-- The quantity carried by a stock operation. -/
def StockOp.quantity : StockOp → Int
  | StockOp.restock q _ _ _ _ => q
  | StockOp.orderDecrement q => q

/-- Apply one stock operation; a failed decrement (reduceStock throws)
leaves the record unchanged. -/
def applyStockOp (inv : Inventory) : StockOp → Inventory
  | StockOp.restock q c actor t n => addStock inv q c actor t n
  | StockOp.orderDecrement q =>
    match reduceStock inv q with
    | Except.ok updated => updated
    | Except.error _ => inv

/-- Run a sequence of stock operations on one record. -/
def runStockOps (inv : Inventory) (ops : List StockOp) : Inventory :=
  ops.foldl applyStockOp inv

theorem applyStockOp_nonneg (inv : Inventory) (op : StockOp)
    (h0 : 0 ≤ inv.currentStock) (hq : 0 < op.quantity) :
    0 ≤ (applyStockOp inv op).currentStock := by
  cases op with
  | restock q c actor t n =>
    simp only [applyStockOp, addStock, StockOp.quantity] at *
    omega
  | orderDecrement q =>
    simp only [applyStockOp, reduceStock, StockOp.quantity] at *
    by_cases h : inv.currentStock < q
    · simpa [h] using h0
    · simp only [h, if_false]
      omega

theorem runStockOps_nonneg (ops : List StockOp) : ∀ inv : Inventory,
    0 ≤ inv.currentStock → (∀ op ∈ ops, 0 < op.quantity) →
    0 ≤ (runStockOps inv ops).currentStock := by
  induction ops with
  | nil =>
    intro inv h0 _
    simpa [runStockOps] using h0
  | cons op rest ih =>
    intro inv h0 hq
    have h1 := applyStockOp_nonneg inv op h0 (hq op (List.mem_cons_self op rest))
    have h2 := ih (applyStockOp inv op) h1 (fun o ho => hq o (List.mem_cons_of_mem op ho))
    simpa [runStockOps, List.foldl_cons] using h2

/-- Claim C7: across any sequence of restocks and decrements with
positive quantities, the stock never becomes negative; a decrement
whose quantity exceeds the current stock fails and leaves the record
unchanged rather than underflowing. -/
theorem c7_stock_never_negative (inv : Inventory) (ops : List StockOp)
    (h0 : 0 ≤ inv.currentStock) (hq : ∀ op ∈ ops, 0 < op.quantity) :
    0 ≤ (runStockOps inv ops).currentStock ∧
    ∀ q : Int, inv.currentStock < q →
      reduceStock inv q = Except.error "Insufficient stock" ∧
      applyStockOp inv (StockOp.orderDecrement q) = inv := by
  refine ⟨runStockOps_nonneg ops inv h0 hq, fun q hlt => ⟨?_, ?_⟩⟩
  · simp [reduceStock, hlt]
  · simp [applyStockOp, reduceStock, hlt]

/-- Witness for C7 at a concrete record and operation sequence. -/
theorem c7_stock_never_negative_witness :
    (0 : Int) ≤ 5 ∧
    (0 ≤ (runStockOps
        ⟨1, 5, 10, 100, [], ⟨true, AlertFrequency.daily, none, 2⟩, 0, true⟩
        [StockOp.orderDecrement 3, StockOp.orderDecrement 3,
         StockOp.restock 4 0 "admin" 1 ""]).currentStock ∧
      ∀ q : Int, (5 : Int) < q →
        reduceStock ⟨1, 5, 10, 100, [], ⟨true, AlertFrequency.daily, none, 2⟩, 0, true⟩ q =
          Except.error "Insufficient stock" ∧
        applyStockOp ⟨1, 5, 10, 100, [], ⟨true, AlertFrequency.daily, none, 2⟩, 0, true⟩
          (StockOp.orderDecrement q) =
          ⟨1, 5, 10, 100, [], ⟨true, AlertFrequency.daily, none, 2⟩, 0, true⟩) :=
  ⟨by decide,
   c7_stock_never_negative
     ⟨1, 5, 10, 100, [], ⟨true, AlertFrequency.daily, none, 2⟩, 0, true⟩
     [StockOp.orderDecrement 3, StockOp.orderDecrement 3,
      StockOp.restock 4 0 "admin" 1 ""]
     (by decide) (by decide)⟩

/-! ### Restock history cap -/

/-- The arguments of one addStock call. -/
structure RestockCall where
  quantity : Int
  cost : Int
  restockedBy : String
  calledAt : Int
  notes : String
deriving DecidableEq, Repr

/-- The history entry that an addStock call pushes. -/
def RestockCall.entry (r : RestockCall) : RestockEntry :=
  ⟨r.quantity, r.cost, r.restockedBy, r.calledAt, r.notes⟩

/-- Perform one restock call through addStock. -/
def applyRestock (inv : Inventory) (r : RestockCall) : Inventory :=
  addStock inv r.quantity r.cost r.restockedBy r.calledAt r.notes

/-- Perform a sequence of restock calls on one record. -/
def runRestocks (inv : Inventory) (calls : List RestockCall) : Inventory :=
  calls.foldl applyRestock inv

theorem trimHistory_append (xs ys : List RestockEntry) :
    trimHistory (trimHistory xs ++ ys) = trimHistory (xs ++ ys) := by
  unfold trimHistory
  by_cases hx : xs.length > 50
  · simp only [if_pos hx]
    have hA : (xs.drop (xs.length - 50)).length = 50 := by
      simp only [List.length_drop]
      omega
    by_cases hy : ys.length = 0
    · have hnil : ys = [] := List.eq_nil_of_length_eq_zero hy
      subst hnil
      simp only [List.append_nil]
      rw [if_neg (by omega), if_pos hx]
    · rw [if_pos (by simp only [List.length_append, hA]; omega),
        if_pos (by simp only [List.length_append]; omega)]
      rw [List.drop_append_eq_append_drop, List.drop_append_eq_append_drop,
        List.drop_drop]
      congr 1
      · congr 1
        simp only [hA, List.length_append]
        omega
      · congr 1
        simp only [hA, List.length_append]
        omega
  · simp only [if_neg hx]

theorem runRestocks_stock (calls : List RestockCall) : ∀ inv : Inventory,
    (runRestocks inv calls).currentStock =
      inv.currentStock + (calls.map RestockCall.quantity).sum := by
  induction calls with
  | nil =>
    intro inv
    simp [runRestocks]
  | cons c rest ih =>
    intro inv
    have h := ih (applyRestock inv c)
    simp only [runRestocks, List.foldl_cons] at h ⊢
    rw [h]
    simp only [applyRestock, addStock, List.map_cons, List.sum_cons]
    ring

theorem runRestocks_history (calls : List RestockCall) : ∀ inv : Inventory,
    calls ≠ [] →
    (runRestocks inv calls).restockHistory =
      trimHistory (inv.restockHistory ++ calls.map RestockCall.entry) := by
  induction calls with
  | nil =>
    intro inv h
    exact absurd rfl h
  | cons c rest ih =>
    intro inv _
    by_cases hrest : rest = []
    · subst hrest
      simp [runRestocks, applyRestock, addStock, RestockCall.entry]
    · have h := ih (applyRestock inv c) hrest
      simp only [runRestocks, List.foldl_cons] at h ⊢
      rw [h]
      simp only [applyRestock, addStock, RestockCall.entry]
      rw [trimHistory_append, List.append_assoc]
      simp [RestockCall.entry]

/-- Claim C8: each restock adds exactly its quantity to currentStock and
appends one entry to restockHistory, which is trimmed to the most
recent 50 entries in order; after at least 50 restocks (the spec
scenario uses 60) the history has length exactly 50 and equals the 50
most recent entries of the full append-only log, in order. -/
theorem c8_restock_history_cap (inv : Inventory) (calls : List RestockCall)
    (hlen : 50 ≤ calls.length) :
    (∀ q c actor t n, (addStock inv q c actor t n).currentStock = inv.currentStock + q) ∧
    (∀ q c actor t n,
      (addStock inv q c actor t n).restockHistory.getLast? = some ⟨q, c, actor, t, n⟩) ∧
    (runRestocks inv calls).currentStock =
      inv.currentStock + (calls.map RestockCall.quantity).sum ∧
    (runRestocks inv calls).restockHistory.length = 50 ∧
    (runRestocks inv calls).restockHistory =
      (inv.restockHistory ++ calls.map RestockCall.entry).drop
        (inv.restockHistory.length + calls.length - 50) := by
  have hne : calls ≠ [] := by
    intro h
    rw [h] at hlen
    simp at hlen
  have hh := runRestocks_history calls inv hne
  have hfull : (inv.restockHistory ++ calls.map RestockCall.entry).length =
      inv.restockHistory.length + calls.length := by
    simp [List.length_append]
  refine ⟨fun q c actor t n => rfl, fun q c actor t n => ?_, runRestocks_stock calls inv, ?_, ?_⟩
  · simp only [addStock]
    unfold trimHistory
    by_cases h : (inv.restockHistory ++ [(⟨q, c, actor, t, n⟩ : RestockEntry)]).length > 50
    · rw [if_pos h]
      rw [List.drop_append_eq_append_drop]
      have : ((inv.restockHistory ++ [(⟨q, c, actor, t, n⟩ : RestockEntry)]).length - 50 -
          inv.restockHistory.length) = 0 := by
        simp only [List.length_append, List.length_cons, List.length_nil] at h ⊢
        omega
      rw [this]
      simp
    · rw [if_neg h]
      simp
  · rw [hh]
    unfold trimHistory
    by_cases h : (inv.restockHistory ++ calls.map RestockCall.entry).length > 50
    · rw [if_pos h]
      simp only [List.length_drop]
      omega
    · rw [if_neg h]
      simp only [hfull, List.length_map] at h ⊢
      omega
  · rw [hh]
    unfold trimHistory
    by_cases h : (inv.restockHistory ++ calls.map RestockCall.entry).length > 50
    · rw [if_pos h, hfull]
    · rw [if_neg h]
      have : inv.restockHistory.length + calls.length - 50 = 0 := by
        simp only [hfull] at h
        omega
      rw [this]
      simp

/-- A record with empty history used by the C8 witness. -/
def freshRecord : Inventory :=
  ⟨1, 0, 10, 100, [], ⟨true, AlertFrequency.daily, none, 2⟩, 0, true⟩

/-- Sixty identical restock calls used by the C8 witness. -/
def sixtyRestocks : List RestockCall :=
  List.replicate 60 ⟨5, 0, "admin", 0, ""⟩

/-- Witness for C8: sixty restocks on a fresh record leave history
length exactly 50. -/
theorem c8_restock_history_cap_witness :
    50 ≤ sixtyRestocks.length ∧
    ((∀ q c actor t n,
        (addStock freshRecord q c actor t n).currentStock = freshRecord.currentStock + q) ∧
      (∀ q c actor t n,
        (addStock freshRecord q c actor t n).restockHistory.getLast? = some ⟨q, c, actor, t, n⟩) ∧
      (runRestocks freshRecord sixtyRestocks).currentStock =
        freshRecord.currentStock + (sixtyRestocks.map RestockCall.quantity).sum ∧
      (runRestocks freshRecord sixtyRestocks).restockHistory.length = 50 ∧
      (runRestocks freshRecord sixtyRestocks).restockHistory =
        (freshRecord.restockHistory ++ sixtyRestocks.map RestockCall.entry).drop
          (freshRecord.restockHistory.length + sixtyRestocks.length - 50)) :=
  ⟨by decide, c8_restock_history_cap freshRecord sixtyRestocks (by decide)⟩

/-! ### Concurrent decrements of one record

reduceStock runs on a document previously fetched with findOne and
writes it back with save: the availability check and the subtraction
use the in-memory snapshot, and the save overwrites the stored value
with the in-memory result.  A decrement request on one record is
therefore two storage interactions: a read (the findOne fetch, taking
a snapshot of currentStock) and a write (the in-memory comparison of
processOrderInventory and reduceStock followed by the save).  The
model below makes each of those two steps atomic and lets concurrent
requests interleave arbitrarily between them. -/

/-- The two storage interactions of one decrement request. -/
inductive DecPhase
  | read
  | write
deriving DecidableEq, Repr

/-- One scheduled step: which request performs which phase. -/
structure DecEvent where
  reqIndex : Nat
  phase : DecPhase
deriving DecidableEq, Repr

/-- Execution state: the stored stock value, each request's snapshot of
it (none before the request's read), and each request's outcome (none
while the request is still in flight). -/
structure DecExecState where
  stock : Int
  snapshots : List (Option Int)
  results : List (Option Bool)
deriving DecidableEq, Repr

/-- One step of the interleaved execution.  A read stores the current
stock into the request's snapshot; a write performs the in-memory
comparison against the snapshot and, on success, saves the in-memory
value snapshot minus quantity back over the stored stock. -/
def decStep (quantities : List Int) (st : DecExecState) (e : DecEvent) : DecExecState :=
  match e.phase with
  | DecPhase.read =>
    { st with snapshots := st.snapshots.set e.reqIndex (some st.stock) }
  | DecPhase.write =>
    match st.snapshots.get? e.reqIndex, quantities.get? e.reqIndex with
    | some (some snapshot), some q =>
      if snapshot < q then
        { st with results := st.results.set e.reqIndex (some false) }
      else
        { st with
            stock := snapshot - q
            results := st.results.set e.reqIndex (some true) }
    | _, _ => st

/-- Run a full interleaving of the decrement requests. -/
def runSchedule (initialStock : Int) (quantities : List Int)
    (sched : List DecEvent) : DecExecState :=
  sched.foldl (decStep quantities)
    ⟨initialStock, List.replicate quantities.length none,
      List.replicate quantities.length none⟩

/-- How many times request i performs phase p in the schedule. -/
def countEvents (sched : List DecEvent) (i : Nat) (p : DecPhase) : Nat :=
  (sched.filter (fun e => e.reqIndex == i && e.phase == p)).length

/-- Request i reads before it writes. -/
def readBeforeWrite (sched : List DecEvent) (i : Nat) : Bool :=
  match sched.findIdx? (fun e => e.reqIndex == i && e.phase == DecPhase.read),
      sched.findIdx? (fun e => e.reqIndex == i && e.phase == DecPhase.write) with
  | some r, some w => decide (r < w)
  | _, _ => false

/-- A schedule is a real interleaving of the n requests: every event
belongs to a request, and each request reads exactly once and then
writes exactly once. -/
def validSchedule (n : Nat) (sched : List DecEvent) : Bool :=
  sched.all (fun e => decide (e.reqIndex < n)) &&
  (List.range n).all (fun i =>
    countEvents sched i DecPhase.read == 1 &&
    countEvents sched i DecPhase.write == 1 &&
    readBeforeWrite sched i)

/-- The lost-update interleaving: both requests read before either
writes. -/
def lostUpdateSchedule : List DecEvent :=
  [⟨0, DecPhase.read⟩, ⟨1, DecPhase.read⟩,
   ⟨0, DecPhase.write⟩, ⟨1, DecPhase.write⟩]

/-- Claim C2 fails on the code: with stock 1 and two concurrent
decrements of quantity 1 each (so the quantities sum to 2 > 1), the
valid interleaving read-read-write-write lets both decrements succeed
with no InsufficientStock failure, and the final stock is 0, not
1 - (1 + 1): the check and subtraction are a read followed by a
write-back of the fetched document, not one atomic conditional update
at the storage layer, so the second save loses the first update. -/
theorem c2_oversell_at_failing_input :
    validSchedule 2 lostUpdateSchedule = true ∧
    ([1, 1] : List Int).sum > 1 ∧
    (runSchedule 1 [1, 1] lostUpdateSchedule).results = [some true, some true] ∧
    (runSchedule 1 [1, 1] lostUpdateSchedule).stock = 0 ∧
    (runSchedule 1 [1, 1] lostUpdateSchedule).stock ≠ 1 - (1 + 1) := by
  constructor
  · decide
  · constructor
    · decide
    · refine ⟨by decide, by decide, by decide⟩

/-- Sequential execution of the same decrements through reduceStock:
each request's read is immediately followed by its write.  Returns the
final record and the per-request success flags. -/
def runSequentialDecrements (inv : Inventory) : List Int → Inventory × List Bool
  | [] => (inv, [])
  | q :: rest =>
    match reduceStock inv q with
    | Except.ok updated =>
      ((runSequentialDecrements updated rest).1,
        true :: (runSequentialDecrements updated rest).2)
    | Except.error _ =>
      ((runSequentialDecrements inv rest).1,
        false :: (runSequentialDecrements inv rest).2)

/-- Total quantity of the requests marked successful. -/
def successfulTotal : List Int → List Bool → Int
  | q :: qs, true :: rs => q + successfulTotal qs rs
  | _ :: qs, false :: rs => successfulTotal qs rs
  | _, _ => 0

/-- Without interleaving the code does satisfy no-oversell: the final
stock is the initial stock minus the successful quantities, never
negative, and when the quantities sum to more than the stock at least
one decrement fails. -/
theorem sequentialDecrements_no_oversell (qs : List Int) : ∀ inv : Inventory,
    0 ≤ inv.currentStock →
    (runSequentialDecrements inv qs).1.currentStock =
      inv.currentStock - successfulTotal qs (runSequentialDecrements inv qs).2 ∧
    0 ≤ (runSequentialDecrements inv qs).1.currentStock ∧
    (qs.sum > inv.currentStock → false ∈ (runSequentialDecrements inv qs).2) := by
  induction qs with
  | nil =>
    intro inv h0
    refine ⟨by simp [runSequentialDecrements, successfulTotal], ?_, ?_⟩
    · simpa [runSequentialDecrements] using h0
    · intro hsum
      simp only [runSequentialDecrements, List.sum_nil] at hsum ⊢
      omega
  | cons q rest ih =>
    intro inv h0
    by_cases h : inv.currentStock < q
    · obtain ⟨ih1, ih2, ih3⟩ := ih inv h0
      simp only [runSequentialDecrements, reduceStock, if_pos h, successfulTotal,
        List.sum_cons, List.mem_cons]
      refine ⟨ih1, ih2, fun _ => Or.inl trivial⟩
    · have hupd : 0 ≤ inv.currentStock - q := by omega
      obtain ⟨ih1, ih2, ih3⟩ :=
        ih { inv with currentStock := inv.currentStock - q } hupd
      simp only [runSequentialDecrements, reduceStock, if_neg h, successfulTotal,
        List.sum_cons, List.mem_cons]
      refine ⟨by rw [ih1]; simp; ring, ih2, fun hsum => ?_⟩
      exact Or.inr (ih3 (by simp at hsum ⊢; omega))

/-! ### Order workflow data model (src/models/Order.js, src/routes/orders.js) -/

/-- The customer snapshot stored on an order. -/
structure Customer where
  name : String
  phone : String
  address : String
  state : String
deriving DecidableEq, Repr

/-- A catalog product (src/models/Cocktail.js fields used by the order
workflow). -/
structure Cocktail where
  id : Nat
  name : String
  price : Int
  availableStates : List String
  isActive : Bool
deriving DecidableEq, Repr

/-- One persisted order line item with the price snapshotted at order
time (orderItemSchema). -/
structure OrderItem where
  cocktail : Nat
  quantity : Int
  price : Int
deriving DecidableEq, Repr

/-- A persisted order (orderSchema); `id` models the document id. -/
structure Order where
  id : Nat
  orderNumber : String
  idempotencyKey : String
  customer : Customer
  items : List OrderItem
  subtotal : Int
  totalAmount : Int
  paymentStatus : String
  fulfillmentStatus : String
  notes : String
deriving DecidableEq, Repr

/-- One requested line item of a createOrder request body. -/
structure OrderItemRequest where
  cocktail : Nat
  quantity : Int
deriving DecidableEq, Repr

/-- The body of a POST /orders request after validateOrder. -/
structure CreateOrderRequest where
  customer : Customer
  items : List OrderItemRequest
  idempotencyKey : String
  notes : String
deriving DecidableEq, Repr

/-- The persistent store: orders, the cocktail catalog and the
inventory records. -/
structure Db where
  orders : List Order
  cocktails : List Cocktail
  inventory : List Inventory
deriving DecidableEq, Repr

/-! ### Inventory processing of an order
(processOrderInventory, src/services/inventoryAlertService.js) -/

/-- Inventory.findOne of an active record for a cocktail. -/
def findInventory (store : List Inventory) (cocktailId : Nat) : Option Inventory :=
  store.find? (fun inv => inv.cocktail == cocktailId && inv.isActive)

/-- Saving a record back: inventory records are keyed 1:1 by cocktail
(unique index), so the save replaces the record with that key. -/
def saveInventory (store : List Inventory) (updated : Inventory) : List Inventory :=
  store.map (fun inv => if inv.cocktail == updated.cocktail then updated else inv)

/-- Mark a record as alerted now (alertSettings.lastAlertSent = new
Date() followed by save). -/
def alertSent (now : Int) (inv : Inventory) : Inventory :=
  { inv with alertSettings := { inv.alertSettings with lastAlertSent := some now } }

/-- checkInventoryLevels: alert every active critical record whose
settings allow it, then every active low record that is not critical
(processLowStockAlert returns early when isStockCritical).  The email
sends are external collaborators; sendCriticalStockEmail and
sendLowStockEmail swallow their own errors, so lastAlertSent is set
for every record that qualifies.  currentStock is never modified. -/
def checkInventoryLevels (now : Int) (store : List Inventory) : List Inventory :=
  let afterCritical := store.map (fun inv =>
    if inv.isActive && isStockCritical inv && inv.alertSettings.isEnabled &&
        shouldSendAlert now inv.alertSettings then
      alertSent now inv
    else inv)
  afterCritical.map (fun inv =>
    if inv.isActive && isStockLow inv && !isStockCritical inv &&
        inv.alertSettings.isEnabled && shouldSendAlert now inv.alertSettings then
      alertSent now inv
    else inv)

/-- The per-item loop of processOrderInventory: find the active record
for each line item; when the record exists and its stock is below the
quantity, throw (aborting the loop and keeping the decrements already
saved); otherwise reduce the stock and save; items without a record
are logged and skipped. -/
def processItemsLoop : List OrderItem → List Inventory → Option String × List Inventory
  | [], store => (none, store)
  | item :: rest, store =>
    match findInventory store item.cocktail with
    | some inventoryItem =>
      if inventoryItem.currentStock < item.quantity then
        (some "Insufficient stock", store)
      else
        match reduceStock inventoryItem item.quantity with
        | Except.ok updated => processItemsLoop rest (saveInventory store updated)
        | Except.error msg => (some msg, store)
    | none => processItemsLoop rest store

/-- processOrderInventory: run the per-item loop; on success run
checkInventoryLevels afterwards; a thrown error propagates to the
caller together with the store as mutated so far. -/
def processOrderInventory (now : Int) (items : List OrderItem)
    (store : List Inventory) : Option String × List Inventory :=
  match processItemsLoop items store with
  | (some msg, store₁) => (some msg, store₁)
  | (none, store₁) => (none, checkInventoryLevels now store₁)

/-! ### createOrder (router.post of src/routes/orders.js) -/

/-- The response of POST /orders: a 201 success carrying the order, or
one of the error responses (400 Duplicate order carrying the existing
order, 400 invalid cocktails, 400 cocktail not available in the
customer state, or the catch-all 500). -/
inductive CreateOrderResult
  | created (order : Order)
  | duplicateOrder (existing : Order)
  | invalidCocktails
  | cocktailNotAvailable (name state : String)
  | serverError
deriving DecidableEq, Repr

/-- Whether the response is an error response (HTTP 400/500 with an
error field) rather than the 201 success. -/
def isErrorResponse : CreateOrderResult → Bool
  | CreateOrderResult.created _ => false
  | _ => true

/-- Left-pad with zeros to six characters (String(n).padStart(6, '0')). -/
def padStart6 (s : String) : String :=
  if s.length < 6 then String.mk (List.replicate (6 - s.length) '0') ++ s else s

/-- Order number generation of the orderSchema pre-save hook: count the
existing order documents and format count + 1. -/
def generateOrderNumber (count : Nat) : String :=
  "ORD-" ++ padStart6 (toString (count + 1))

/-- The cocktails fetched for the request: active catalog entries whose
id occurs among the requested item ids. -/
def activeRequested (db : Db) (req : CreateOrderRequest) : List Cocktail :=
  db.cocktails.filter (fun c =>
    (req.items.map (fun item => item.cocktail)).contains c.id && c.isActive)

/-- The item-validation loop of the route: resolve each requested item
against the fetched cocktails, reject when the cocktail is not sold in
the customer state, and accumulate the subtotal and the validated
items with the snapshotted price.  The none branch mirrors the
JavaScript TypeError (caught as a 500) and is unreachable after the
length check. -/
def buildItemsLoop (customerState : String) (found : List Cocktail) :
    List OrderItemRequest → Int → List OrderItem →
    Except CreateOrderResult (List OrderItem × Int)
  | [], subtotal, acc => Except.ok (acc, subtotal)
  | item :: rest, subtotal, acc =>
    match found.find? (fun c => c.id == item.cocktail) with
    | none => Except.error CreateOrderResult.serverError
    | some cocktail =>
      if cocktail.availableStates.contains customerState then
        buildItemsLoop customerState found rest
          (subtotal + cocktail.price * item.quantity)
          (acc ++ [⟨cocktail.id, item.quantity, cocktail.price⟩])
      else
        Except.error (CreateOrderResult.cocktailNotAvailable cocktail.name customerState)

/-- The order document built and saved by the route: totalAmount is the
subtotal (no additional fees), paymentStatus defaults to pending,
fulfillmentStatus to new, and the pre-save hook assigns the order
number from the current document count. -/
def newOrder (db : Db) (req : CreateOrderRequest) (validatedItems : List OrderItem)
    (subtotal : Int) : Order :=
  { id := db.orders.length
    orderNumber := generateOrderNumber db.orders.length
    idempotencyKey := req.idempotencyKey
    customer := req.customer
    items := validatedItems
    subtotal := subtotal
    totalAmount := subtotal
    paymentStatus := "pending"
    fulfillmentStatus := "new"
    notes := req.notes }

/-- POST /orders: check the idempotency key against existing orders
(returning a 400 Duplicate order response carrying the existing order
when found), fetch and length-check the active cocktails, validate the
items and compute totals, save the order, then process inventory
inside a try/catch whose failure is only logged — the 201 response is
sent regardless and carries no inventory information. -/
def createOrder (now : Int) (db : Db) (req : CreateOrderRequest) :
    CreateOrderResult × Db :=
  match db.orders.find? (fun o => o.idempotencyKey == req.idempotencyKey) with
  | some existingOrder => (CreateOrderResult.duplicateOrder existingOrder, db)
  | none =>
    if (activeRequested db req).length ≠
        (req.items.map (fun item => item.cocktail)).length then
      (CreateOrderResult.invalidCocktails, db)
    else
      match buildItemsLoop req.customer.state (activeRequested db req) req.items 0 [] with
      | Except.error r => (r, db)
      | Except.ok (validatedItems, subtotal) =>
        (CreateOrderResult.created (newOrder db req validatedItems subtotal),
          { db with
              orders := db.orders ++ [newOrder db req validatedItems subtotal]
              inventory :=
                (processOrderInventory now validatedItems db.inventory).2 })

/-! ### Fulfillment status update (router.patch of src/routes/orders.js,
validateOrderStatusUpdate of src/middleware/validation.js) -/

/-- The response of PATCH /orders/:id/status. -/
inductive UpdateStatusResult
  | updated (order : Order)
  | validationFailed
  | orderNotFound
deriving DecidableEq, Repr

/-- The fulfillmentStatus values accepted by validateOrderStatusUpdate
(note the middleware omits in_route even though the schema enum has
it). -/
def allowedStatusValues : List String :=
  ["new", "preparing", "delivered", "cancelled"]

/-- PATCH /orders/:id/status: after the enum check of the validation
middleware, the handler loads the order and assigns the requested
fulfillmentStatus unconditionally — there is no transition check of
any kind. -/
def updateFulfillmentStatus (db : Db) (orderId : Nat) (newStatus : String) :
    UpdateStatusResult × Db :=
  if !(allowedStatusValues.contains newStatus) then
    (UpdateStatusResult.validationFailed, db)
  else
    match db.orders.find? (fun o => o.id == orderId) with
    | none => (UpdateStatusResult.orderNotFound, db)
    | some order =>
      (UpdateStatusResult.updated { order with fulfillmentStatus := newStatus },
        { db with
            orders := db.orders.map (fun o =>
              if o.id == orderId then { order with fulfillmentStatus := newStatus }
              else o) })

/-- A later change of a product's live price (the PUT catalog route
updates only the Cocktail document). -/
def updateCocktailPrice (db : Db) (cocktailId : Nat) (newPrice : Int) : Db :=
  { db with
      cocktails := db.cocktails.map (fun c =>
        if c.id == cocktailId then { c with price := newPrice } else c) }

/-! ### Structural lemmas about createOrder and inventory processing -/

/-- The sum of quantity times snapshotted unit price over line items. -/
def itemsSubtotal (items : List OrderItem) : Int :=
  (items.map (fun item => item.price * item.quantity)).sum

theorem buildItemsLoop_ok (reqItems : List OrderItemRequest) :
    ∀ (found : List Cocktail) (customerState : String) (subtotal₀ : Int)
      (acc validatedItems : List OrderItem) (subtotal : Int),
    buildItemsLoop customerState found reqItems subtotal₀ acc =
      Except.ok (validatedItems, subtotal) →
    ∃ newItems,
      validatedItems = acc ++ newItems ∧
      subtotal = subtotal₀ + itemsSubtotal newItems ∧
      ∀ item ∈ newItems, ∃ c, c ∈ found ∧ c.id = item.cocktail ∧
        item.price = c.price := by
  induction reqItems with
  | nil =>
    intro found st s₀ acc items s h
    simp only [buildItemsLoop, Except.ok.injEq, Prod.mk.injEq] at h
    obtain ⟨h1, h2⟩ := h
    exact ⟨[], by simp [h1], by simp [itemsSubtotal, h2], by simp⟩
  | cons item rest ih =>
    intro found st s₀ acc items s h
    simp only [buildItemsLoop] at h
    split at h
    · exact absurd h (by simp)
    · rename_i cocktail hfind
      by_cases hst : cocktail.availableStates.contains st
      · rw [if_pos hst] at h
        obtain ⟨tailItems, hitems, hsub, hmem⟩ := ih found st _ _ items s h
        refine ⟨⟨cocktail.id, item.quantity, cocktail.price⟩ :: tailItems, ?_, ?_, ?_⟩
        · rw [hitems, List.append_assoc, List.singleton_append]
        · rw [hsub]
          simp only [itemsSubtotal, List.map_cons, List.sum_cons]
          ring
        · intro it hit
          rcases List.mem_cons.mp hit with h1 | h1
          · subst h1
            exact ⟨cocktail, List.mem_of_find?_eq_some hfind, rfl, rfl⟩
          · exact hmem it h1
      · rw [if_neg hst] at h
        exact absurd h (by simp)

theorem buildItemsLoop_error_ne_created (reqItems : List OrderItemRequest) :
    ∀ (found : List Cocktail) (st : String) (s : Int) (acc : List OrderItem)
      (r : CreateOrderResult),
    buildItemsLoop st found reqItems s acc = Except.error r →
    ∀ ord : Order, r ≠ CreateOrderResult.created ord := by
  induction reqItems with
  | nil =>
    intro found st s acc r h
    simp [buildItemsLoop] at h
  | cons item rest ih =>
    intro found st s acc r h
    simp only [buildItemsLoop] at h
    split at h
    · simp only [Except.error.injEq] at h
      subst h
      intro ord
      simp
    · rename_i cocktail hfind
      by_cases hst : cocktail.availableStates.contains st
      · rw [if_pos hst] at h
        exact ih found st _ _ r h
      · rw [if_neg hst] at h
        simp only [Except.error.injEq] at h
        subst h
        intro ord
        simp

theorem createOrder_created_spec (now : Int) (db : Db) (req : CreateOrderRequest)
    (o : Order) (db₁ : Db)
    (h : createOrder now db req = (CreateOrderResult.created o, db₁)) :
    db.orders.find? (fun x => x.idempotencyKey == req.idempotencyKey) = none ∧
    o.idempotencyKey = req.idempotencyKey ∧
    db₁.orders = db.orders ++ [o] ∧
    db₁.cocktails = db.cocktails ∧
    db₁.inventory = (processOrderInventory now o.items db.inventory).2 ∧
    o.subtotal = itemsSubtotal o.items ∧
    o.totalAmount = o.subtotal ∧
    (∀ item ∈ o.items, ∃ c, c ∈ db.cocktails ∧ c.isActive = true ∧
      c.id = item.cocktail ∧ item.price = c.price) := by
  unfold createOrder at h
  split at h
  · exact absurd h (by simp)
  · rename_i hfind
    by_cases hlen : (activeRequested db req).length =
        (req.items.map (fun item => item.cocktail)).length
    · rw [if_neg (fun hne => hne hlen)] at h
      split at h
      · rename_i r hbuild
        simp only [Prod.mk.injEq] at h
        exact absurd h.1
          (buildItemsLoop_error_ne_created req.items (activeRequested db req)
            req.customer.state 0 [] r hbuild o)
      · rename_i items subtotal hbuild
        simp only [Prod.mk.injEq, CreateOrderResult.created.injEq] at h
        obtain ⟨ho, hdb⟩ := h
        subst ho
        subst hdb
        obtain ⟨newItems, hitems, hsub, hmem⟩ :=
          buildItemsLoop_ok req.items (activeRequested db req) req.customer.state
            0 [] items subtotal hbuild
        simp only [List.nil_append] at hitems
        subst hitems
        refine ⟨hfind, rfl, rfl, rfl, rfl, ?_, rfl, ?_⟩
        · simpa using hsub
        · intro item hitem
          obtain ⟨c, hcfound, hcid, hcprice⟩ := hmem item hitem
          have hc := List.mem_filter.mp hcfound
          refine ⟨c, hc.1, ?_, hcid, hcprice⟩
          have := hc.2
          simp only [Bool.and_eq_true] at this
          exact this.2
    · rw [if_pos hlen] at h
      exact absurd h (by simp)

theorem processItemsLoop_append (xs ys : List OrderItem) : ∀ store : List Inventory,
    processItemsLoop (xs ++ ys) store =
      match processItemsLoop xs store with
      | (none, s) => processItemsLoop ys s
      | (some msg, s) => (some msg, s) := by
  induction xs with
  | nil =>
    intro store
    simp [processItemsLoop]
  | cons item rest ih =>
    intro store
    simp only [List.cons_append, processItemsLoop]
    cases hfind : findInventory store item.cocktail with
    | none => exact ih store
    | some inventoryItem =>
      by_cases hq : inventoryItem.currentStock < item.quantity
      · simp [hq]
      · simp only [hq, if_false, reduceStock, if_neg hq]
        exact ih (saveInventory store
          { inventoryItem with
              currentStock := inventoryItem.currentStock - item.quantity })

theorem processItemsLoop_fail_head (item : OrderItem) (post : List OrderItem)
    (store : List Inventory) (record : Inventory)
    (hrec : findInventory store item.cocktail = some record)
    (hshort : record.currentStock < item.quantity) :
    processItemsLoop (item :: post) store = (some "Insufficient stock", store) := by
  simp [processItemsLoop, hrec, hshort]

theorem findInventory_saveInventory_ne (updated : Inventory) (p : Nat)
    (hne : p ≠ updated.cocktail) : ∀ store : List Inventory,
    findInventory (saveInventory store updated) p = findInventory store p := by
  intro store
  induction store with
  | nil => rfl
  | cons inv rest ih =>
    simp only [saveInventory, List.map_cons] at ih ⊢
    by_cases hkey : (inv.cocktail == updated.cocktail) = true
    · have hinvc : inv.cocktail = updated.cocktail := eq_of_beq hkey
      have hpredu : (updated.cocktail == p && updated.isActive) = false := by
        have hu : (updated.cocktail == p) = false := by
          simp [Ne.symm hne]
        simp [hu]
      have hpredi : (inv.cocktail == p && inv.isActive) = false := by
        have hi : (inv.cocktail == p) = false := by
          rw [hinvc]
          simp [Ne.symm hne]
        simp [hi]
      rw [if_pos hkey]
      simp only [findInventory, List.find?_cons, hpredu, hpredi] at ih ⊢
      exact ih
    · rw [if_neg hkey]
      simp only [findInventory, List.find?_cons] at ih ⊢
      by_cases hpred : (inv.cocktail == p && inv.isActive) = true
      · simp only [hpred]
      · simp only [Bool.not_eq_true] at hpred
        simp only [hpred]
        exact ih

theorem processItemsLoop_preserves_other (items : List OrderItem) :
    ∀ (store store₁ : List Inventory) (res : Option String) (p : Nat),
    processItemsLoop items store = (res, store₁) →
    p ∉ items.map (fun i => i.cocktail) →
    findInventory store₁ p = findInventory store p := by
  induction items with
  | nil =>
    intro store store₁ res p h _
    simp only [processItemsLoop, Prod.mk.injEq] at h
    rw [← h.2]
  | cons item rest ih =>
    intro store store₁ res p h hp
    simp only [List.map_cons, List.mem_cons, not_or] at hp
    obtain ⟨hp1, hp2⟩ := hp
    simp only [processItemsLoop] at h
    split at h
    · rename_i inventoryItem hfind
      by_cases hq : inventoryItem.currentStock < item.quantity
      · rw [if_pos hq] at h
        simp only [Prod.mk.injEq] at h
        rw [← h.2]
      · rw [if_neg hq] at h
        simp only [reduceStock, if_neg hq] at h
        have hrec := ih _ store₁ res p h hp2
        rw [hrec]
        apply findInventory_saveInventory_ne
        have hpa := List.find?_some hfind
        simp only [Bool.and_eq_true, beq_iff_eq] at hpa
        simpa [hpa.1] using hp1
    · rename_i hfind
      exact ih store store₁ res p h hp2

theorem createOrder_first_failure (now : Int) (db : Db)
    (req : CreateOrderRequest) (o : Order) (db₁ : Db)
    (pre post : List OrderItem) (item : OrderItem)
    (store₁ : List Inventory) (record : Inventory)
    (h : createOrder now db req = (CreateOrderResult.created o, db₁))
    (hsplit : o.items = pre ++ item :: post)
    (hpre : processItemsLoop pre db.inventory = (none, store₁))
    (hrec : findInventory store₁ item.cocktail = some record)
    (hshort : record.currentStock < item.quantity) :
    processOrderInventory now o.items db.inventory =
      (some "Insufficient stock", store₁) ∧
    db₁.inventory = store₁ ∧
    db₁.orders = db.orders ++ [o] := by
  obtain ⟨-, -, horders, -, hinv, -, -, -⟩ :=
    createOrder_created_spec now db req o db₁ h
  have hloop : processItemsLoop o.items db.inventory =
      (some "Insufficient stock", store₁) := by
    rw [hsplit, processItemsLoop_append, hpre]
    exact processItemsLoop_fail_head item post store₁ record hrec hshort
  refine ⟨?_, ?_, horders⟩
  · unfold processOrderInventory
    rw [hloop]
  · rw [hinv]
    unfold processOrderInventory
    rw [hloop]

/-! ### Claims C5, C10, C3, C1, C4 -/

/-- Claim C5: a created order's subtotal is the sum over its line items
of quantity times the unit price snapshotted from the catalog when the
order was created, totalAmount equals subtotal, and later changes to a
product's live price leave the stored orders untouched. -/
theorem c5_pricing_consistency (now : Int) (db : Db) (req : CreateOrderRequest)
    (o : Order) (db₁ : Db)
    (h : createOrder now db req = (CreateOrderResult.created o, db₁)) :
    o.subtotal = (o.items.map (fun item => item.price * item.quantity)).sum ∧
    o.totalAmount = o.subtotal ∧
    (∀ item ∈ o.items, ∃ c, c ∈ db.cocktails ∧ c.isActive = true ∧
      c.id = item.cocktail ∧ item.price = c.price) ∧
    (∀ cocktailId newPrice,
      (updateCocktailPrice db₁ cocktailId newPrice).orders = db₁.orders) := by
  obtain ⟨-, -, -, -, -, hsub, htotal, hmem⟩ :=
    createOrder_created_spec now db req o db₁ h
  exact ⟨hsub, htotal, hmem, fun cocktailId newPrice => rfl⟩

/-- Claim C10: when the first failing line item is item k, inventory
processing stops there: the loop throws, every item before k keeps its
already-saved decrement (the resulting store is exactly the store
after processing the prefix), item k and all later items are not
decremented, and the persisted order is unaffected. -/
theorem c10_first_failure_stops_inventory (now : Int) (db : Db)
    (req : CreateOrderRequest) (o : Order) (db₁ : Db)
    (pre post : List OrderItem) (item : OrderItem)
    (store₁ : List Inventory) (record : Inventory)
    (h : createOrder now db req = (CreateOrderResult.created o, db₁))
    (hsplit : o.items = pre ++ item :: post)
    (hpre : processItemsLoop pre db.inventory = (none, store₁))
    (hrec : findInventory store₁ item.cocktail = some record)
    (hshort : record.currentStock < item.quantity) :
    processOrderInventory now o.items db.inventory =
      (some "Insufficient stock", store₁) ∧
    db₁.inventory = store₁ ∧
    db₁.orders = db.orders ++ [o] :=
  createOrder_first_failure now db req o db₁ pre post item store₁ record
    h hsplit hpre hrec hshort

/-- Claim C3 (amended): for every created order, single- or multi-item,
whose first failing line item hits insufficient stock, the order is
still persisted, the affected product's stock is left exactly as it
was before the order, but the failure is only caught and logged — the
caller receives the plain 201 success response, which carries no
inventory warning. -/
theorem c3_inventory_failure_silent (now : Int) (db : Db)
    (req : CreateOrderRequest) (o : Order) (db₁ : Db)
    (pre post : List OrderItem) (item : OrderItem)
    (store₁ : List Inventory) (record : Inventory)
    (h : createOrder now db req = (CreateOrderResult.created o, db₁))
    (hsplit : o.items = pre ++ item :: post)
    (hpre : processItemsLoop pre db.inventory = (none, store₁))
    (hnotpre : item.cocktail ∉ pre.map (fun i => i.cocktail))
    (hrec : findInventory store₁ item.cocktail = some record)
    (hshort : record.currentStock < item.quantity) :
    db₁.orders = db.orders ++ [o] ∧
    isErrorResponse (CreateOrderResult.created o) = false ∧
    processOrderInventory now o.items db.inventory =
      (some "Insufficient stock", store₁) ∧
    findInventory db₁.inventory item.cocktail =
      findInventory db.inventory item.cocktail ∧
    findInventory db₁.inventory item.cocktail = some record := by
  obtain ⟨hproc, hinv, horders⟩ :=
    createOrder_first_failure now db req o db₁ pre post item store₁ record
      h hsplit hpre hrec hshort
  have hpres : findInventory store₁ item.cocktail =
      findInventory db.inventory item.cocktail :=
    processItemsLoop_preserves_other pre db.inventory store₁ none
      item.cocktail hpre hnotpre
  refine ⟨horders, rfl, hproc, ?_, ?_⟩
  · rw [hinv]
    exact hpres
  · rw [hinv]
    exact hrec

/-- Claim C1 (amended): a second createOrder call with the idempotency
key of an already-persisted order returns that existing order
unchanged — embedded in a 400 Duplicate-order error response, not a
success — creates no second order and leaves the store untouched, so
both calls hand back an order with the same orderNumber. -/
theorem c1_duplicate_key_replay (now₁ now₂ : Int) (db : Db)
    (req : CreateOrderRequest) (o : Order) (db₁ : Db)
    (h : createOrder now₁ db req = (CreateOrderResult.created o, db₁)) :
    createOrder now₂ db₁ req = (CreateOrderResult.duplicateOrder o, db₁) ∧
    isErrorResponse (CreateOrderResult.duplicateOrder o) = true := by
  obtain ⟨hnone, hkey, horders, -, -, -, -, -⟩ :=
    createOrder_created_spec now₁ db req o db₁ h
  have hfind : db₁.orders.find? (fun x => x.idempotencyKey == req.idempotencyKey) =
      some o := by
    rw [horders, List.find?_append, hnone]
    simp [List.find?_cons, hkey]
  constructor
  · unfold createOrder
    rw [hfind]
  · rfl

/-- Claim C4 (amended): updateFulfillmentStatus performs no transition
check whatever: any requested status among new, preparing, delivered
and cancelled is accepted and stored regardless of the order's current
fulfillmentStatus — terminal states included. -/
theorem c4_no_transition_check (db : Db) (orderId : Nat) (newStatus : String)
    (o : Order)
    (hfind : db.orders.find? (fun x => x.id == orderId) = some o)
    (hvalid : allowedStatusValues.contains newStatus = true) :
    updateFulfillmentStatus db orderId newStatus =
      (UpdateStatusResult.updated { o with fulfillmentStatus := newStatus },
        { db with
            orders := db.orders.map (fun x =>
              if x.id == orderId then { o with fulfillmentStatus := newStatus }
              else x) }) := by
  unfold updateFulfillmentStatus
  rw [hvalid, hfind]
  rfl

/-! ### Concrete scenario (mirrors the end-to-end scenarios of the spec) -/

/-- A catalog product sold only in Lagos at price 2500. -/
def demoCocktail : Cocktail :=
  ⟨1, "Nigerian Sunset", 2500, ["Lagos"], true⟩

/-- A Lagos customer. -/
def demoCustomer : Customer :=
  ⟨"Ada Obi", "08012345678", "12 Marina Road, Lagos Island, Lagos", "Lagos"⟩

/-- Stock record with currentStock 10, minimumStock 5, threshold 2. -/
def demoInventory : Inventory :=
  ⟨1, 10, 5, 100, [], ⟨true, AlertFrequency.daily, none, 2⟩, 0, true⟩

/-- The store before any order. -/
def demoDb : Db := ⟨[], [demoCocktail], [demoInventory]⟩

/-- createOrder request: three units of the product, key k1. -/
def demoRequest : CreateOrderRequest :=
  ⟨demoCustomer, [⟨1, 3⟩], "k1", ""⟩

/-- The order the demo request creates. -/
def demoOrder : Order :=
  ⟨0, generateOrderNumber 0, "k1", demoCustomer, [⟨1, 3, 2500⟩], 7500, 7500,
    "pending", "new", ""⟩

/-- The store after the demo order: order persisted, stock 10 - 3 = 7. -/
def demoDbAfter : Db :=
  ⟨[demoOrder], [demoCocktail],
    [⟨1, 7, 5, 100, [], ⟨true, AlertFrequency.daily, none, 2⟩, 0, true⟩]⟩

/-- Claim C1 fails on the code: replaying createOrder with the
idempotency key of the already-persisted demo order produces the 400
Duplicate-order error response (which embeds the existing order), not
a successful non-error result. -/
theorem c1_duplicate_key_is_error :
    createOrder 0 demoDbAfter demoRequest =
      (CreateOrderResult.duplicateOrder demoOrder, demoDbAfter) ∧
    isErrorResponse (createOrder 0 demoDbAfter demoRequest).1 = true := by
  constructor
  · decide
  · decide

/-- Witness for the amended C1 at the demo scenario: the first call
creates the order, the replay returns exactly that order inside the
Duplicate-order error response and persists nothing new. -/
theorem c1_duplicate_key_replay_witness :
    createOrder 0 demoDb demoRequest =
      (CreateOrderResult.created demoOrder, demoDbAfter) ∧
    (createOrder 1 demoDbAfter demoRequest =
        (CreateOrderResult.duplicateOrder demoOrder, demoDbAfter) ∧
      isErrorResponse (CreateOrderResult.duplicateOrder demoOrder) = true) :=
  have h : createOrder 0 demoDb demoRequest =
      (CreateOrderResult.created demoOrder, demoDbAfter) := by decide
  ⟨h, c1_duplicate_key_replay 0 1 demoDb demoRequest demoOrder demoDbAfter h⟩

/-- Witness for C5 at the demo scenario: subtotal 7500 = 3 × 2500. -/
theorem c5_pricing_consistency_witness :
    createOrder 0 demoDb demoRequest =
      (CreateOrderResult.created demoOrder, demoDbAfter) ∧
    (demoOrder.subtotal =
        (demoOrder.items.map (fun item => item.price * item.quantity)).sum ∧
      demoOrder.totalAmount = demoOrder.subtotal ∧
      (∀ item ∈ demoOrder.items, ∃ c, c ∈ demoDb.cocktails ∧ c.isActive = true ∧
        c.id = item.cocktail ∧ item.price = c.price) ∧
      (∀ cocktailId newPrice,
        (updateCocktailPrice demoDbAfter cocktailId newPrice).orders =
          demoDbAfter.orders)) :=
  have h : createOrder 0 demoDb demoRequest =
      (CreateOrderResult.created demoOrder, demoDbAfter) := by decide
  ⟨h, c5_pricing_consistency 0 demoDb demoRequest demoOrder demoDbAfter h⟩

/-! ### Oversell scenario (spec scenario 4) -/

/-- Stock record with only 2 units on hand. -/
def lowInventory : Inventory :=
  ⟨1, 2, 5, 100, [], ⟨true, AlertFrequency.daily, none, 2⟩, 0, true⟩

/-- The same record with ample stock. -/
def richInventory : Inventory :=
  ⟨1, 100, 5, 100, [], ⟨true, AlertFrequency.daily, none, 2⟩, 0, true⟩

/-- Store with 2 units on hand. -/
def lowDb : Db := ⟨[], [demoCocktail], [lowInventory]⟩

/-- Identical store except ample stock. -/
def richDb : Db := ⟨[], [demoCocktail], [richInventory]⟩

/-- A request for 5 units, exceeding lowDb's stock of 2. -/
def oversellRequest : CreateOrderRequest :=
  ⟨demoCustomer, [⟨1, 5⟩], "k2", ""⟩

/-- Claim C3 fails on the code in its surfacing part: ordering 5 units
against stock 2 makes the decrement fail, leaves the stock at 2 — yet
the response the caller gets is byte-for-byte the same 201 success as
with ample stock, so no inventory warning reaches the order result. -/
theorem c3_no_warning_in_response :
    (createOrder 0 lowDb oversellRequest).1 =
      (createOrder 0 richDb oversellRequest).1 ∧
    isErrorResponse (createOrder 0 lowDb oversellRequest).1 = false ∧
    (processOrderInventory 0 [⟨1, 5, 2500⟩] [lowInventory]).1 =
      some "Insufficient stock" ∧
    findInventory (createOrder 0 lowDb oversellRequest).2.inventory 1 =
      some lowInventory := by
  refine ⟨by decide, by decide, by decide, by decide⟩

/-! ### Two-item partial inventory scenario -/

/-- A second product, also sold in Lagos. -/
def secondCocktail : Cocktail := ⟨2, "Chapman", 1500, ["Lagos"], true⟩

/-- Stock record for the second product with only 3 units. -/
def secondStock : Inventory :=
  ⟨2, 3, 5, 100, [], ⟨true, AlertFrequency.daily, none, 2⟩, 0, true⟩

/-- Store carrying both products. -/
def twoItemDb : Db :=
  ⟨[], [demoCocktail, secondCocktail], [demoInventory, secondStock]⟩

/-- Order request for 2 of the first product and 5 of the second (the
second decrement must fail against stock 3). -/
def twoItemRequest : CreateOrderRequest :=
  ⟨demoCustomer, [⟨1, 2⟩, ⟨2, 5⟩], "k3", ""⟩

/-- The created two-item order. -/
def twoItemOrder : Order :=
  ⟨0, generateOrderNumber 0, "k3", demoCustomer,
    [⟨1, 2, 2500⟩, ⟨2, 5, 1500⟩], 12500, 12500, "pending", "new", ""⟩

/-- The first product's record after its completed decrement 10 - 2. -/
def reducedFirstStock : Inventory :=
  ⟨1, 8, 5, 100, [], ⟨true, AlertFrequency.daily, none, 2⟩, 0, true⟩

/-- Store after the two-item order: order persisted, first product
decremented, second untouched. -/
def twoItemDbAfter : Db :=
  ⟨[twoItemOrder], [demoCocktail, secondCocktail], [reducedFirstStock, secondStock]⟩

/-- Witness for C10 at the two-item scenario. -/
theorem c10_first_failure_stops_inventory_witness :
    createOrder 0 twoItemDb twoItemRequest =
      (CreateOrderResult.created twoItemOrder, twoItemDbAfter) ∧
    (processOrderInventory 0 twoItemOrder.items twoItemDb.inventory =
        (some "Insufficient stock", [reducedFirstStock, secondStock]) ∧
      twoItemDbAfter.inventory = [reducedFirstStock, secondStock] ∧
      twoItemDbAfter.orders = twoItemDb.orders ++ [twoItemOrder]) :=
  have h : createOrder 0 twoItemDb twoItemRequest =
      (CreateOrderResult.created twoItemOrder, twoItemDbAfter) := by decide
  ⟨h, c10_first_failure_stops_inventory 0 twoItemDb twoItemRequest twoItemOrder
    twoItemDbAfter [⟨1, 2, 2500⟩] [] ⟨2, 5, 1500⟩ [reducedFirstStock, secondStock]
    secondStock h (by decide) (by decide) (by decide) (by decide)⟩

/-- Witness for the amended C3 at the two-item scenario: the second
item's decrement fails, the order is persisted, the second product's
record is exactly what it was before the order, and the response is
the plain success. -/
theorem c3_inventory_failure_silent_witness :
    createOrder 0 twoItemDb twoItemRequest =
      (CreateOrderResult.created twoItemOrder, twoItemDbAfter) ∧
    (twoItemDbAfter.orders = twoItemDb.orders ++ [twoItemOrder] ∧
      isErrorResponse (CreateOrderResult.created twoItemOrder) = false ∧
      processOrderInventory 0 twoItemOrder.items twoItemDb.inventory =
        (some "Insufficient stock", [reducedFirstStock, secondStock]) ∧
      findInventory twoItemDbAfter.inventory 2 =
        findInventory twoItemDb.inventory 2 ∧
      findInventory twoItemDbAfter.inventory 2 = some secondStock) :=
  have h : createOrder 0 twoItemDb twoItemRequest =
      (CreateOrderResult.created twoItemOrder, twoItemDbAfter) := by decide
  ⟨h, c3_inventory_failure_silent 0 twoItemDb twoItemRequest twoItemOrder
    twoItemDbAfter [⟨1, 2, 2500⟩] [] ⟨2, 5, 1500⟩ [reducedFirstStock, secondStock]
    secondStock h (by decide) (by decide) (by decide) (by decide) (by decide)⟩

/-! ### Delivered-order transition scenario (spec scenario 5) -/

/-- An order already in the terminal delivered state. -/
def deliveredOrder : Order :=
  ⟨0, "ORD-000001", "k0", demoCustomer, [⟨1, 1, 2500⟩], 2500, 2500,
    "paid", "delivered", ""⟩

/-- Store containing the delivered order. -/
def deliveredDb : Db := ⟨[deliveredOrder], [demoCocktail], [demoInventory]⟩

/-- Claim C4 fails on the code: updating the delivered order to
preparing succeeds (200 with the updated order) and changes the
stored fulfillmentStatus — no InvalidTransition error exists in the
code. -/
theorem c4_delivered_to_preparing_succeeds :
    updateFulfillmentStatus deliveredDb 0 "preparing" =
      (UpdateStatusResult.updated { deliveredOrder with fulfillmentStatus := "preparing" },
        ⟨[{ deliveredOrder with fulfillmentStatus := "preparing" }],
          [demoCocktail], [demoInventory]⟩) ∧
    ({ deliveredOrder with fulfillmentStatus := "preparing" } : Order).fulfillmentStatus ≠
      deliveredOrder.fulfillmentStatus := by
  refine ⟨by decide, by decide⟩

/-- Witness for the amended C4 at the delivered order. -/
theorem c4_no_transition_check_witness :
    deliveredDb.orders.find? (fun x => x.id == 0) = some deliveredOrder ∧
    allowedStatusValues.contains "preparing" = true ∧
    updateFulfillmentStatus deliveredDb 0 "preparing" =
      (UpdateStatusResult.updated { deliveredOrder with fulfillmentStatus := "preparing" },
        { deliveredDb with
            orders := deliveredDb.orders.map (fun x =>
              if x.id == 0 then { deliveredOrder with fulfillmentStatus := "preparing" }
              else x) }) :=
  ⟨by decide, by decide,
    c4_no_transition_check deliveredDb 0 "preparing" deliveredOrder
      (by decide) (by decide)⟩

end CocktailBackend
